import Mathlib

/-!
Verification of the mineflare container backup/restore subsystem.

This file gives a shallow embedding, in Lean, of the parts of the source that
the checked properties are about:

* the file server's backup key generation (`generateBackupKey`,
  `formatUTCDateYYYYMMDDHH`, reverse-epoch naming),
* the file server's restore handler (`handleRestore`), including the
  multipart download machinery (`downloadRangeWithRetry`, `downloadLargeFile`),
* the file server's backup handler (`handleBackup`) and background backup
  jobs (`handleBackgroundBackupStart`, `executeBackupJob`),
* the container startup script's `restore_from_backup` shell function,
* the worker's `POST /plugins/:filename` route handler.

External effects (S3 requests, tar processes, the filesystem) are modelled by
explicit oracle records whose fields give the outcome of each external step;
handlers become pure functions from these oracles to an outcome record that
also reports which effects were invoked.

Machine numbers in the source are JS numbers used as integers within safe
range; they are modelled as `Nat`.  Byte payloads are modelled as `List Nat`.
-/

set_option maxHeartbeats 1000000

namespace Mineflare

/-! ## Decimal printing of natural numbers

JS `String(n)` for a non-negative integer `n` prints its decimal digits.
`decDigits n` is the big-endian list of decimal digits of `n` (with
`decDigits 0 = [0]`, as JS prints `"0"`).  It is written with fuel so that it
is structurally recursive and evaluates inside the kernel. -/

def decDigitsAux : Nat → Nat → List Nat
  | 0, _ => []
  | fuel + 1, n => if n < 10 then [n] else decDigitsAux fuel (n / 10) ++ [n % 10]

def decDigits (n : Nat) : List Nat := decDigitsAux (n + 1) n

theorem decDigitsAux_congr : ∀ (n fuel₁ fuel₂ : Nat), n < fuel₁ → n < fuel₂ →
    decDigitsAux fuel₁ n = decDigitsAux fuel₂ n := by
  intro n
  induction n using Nat.strong_induction_on with
  | _ n ih =>
    intro fuel₁ fuel₂ h₁ h₂
    match fuel₁, fuel₂ with
    | f₁ + 1, f₂ + 1 =>
      simp only [decDigitsAux]
      by_cases h : n < 10
      · simp [h]
      · simp only [h, if_false]
        have hdiv : n / 10 < n := Nat.div_lt_self (by omega) (by omega)
        rw [ih (n / 10) hdiv f₁ f₂ (by omega) (by omega)]

theorem decDigits_eq (n : Nat) :
    decDigits n = if n < 10 then [n] else decDigits (n / 10) ++ [n % 10] := by
  by_cases h : n < 10
  · simp [decDigits, decDigitsAux, h]
  · have hdiv : n / 10 < n := Nat.div_lt_self (by omega) (by omega)
    have h1 : decDigits n = decDigitsAux n (n / 10) ++ [n % 10] := by
      simp only [decDigits, decDigitsAux, h, if_false]
    rw [h1, if_neg h,
      decDigitsAux_congr (n / 10) n (n / 10 + 1) (by omega) (by omega)]
    rfl

/-- The character for a single decimal digit (`'0'`–`'9'` for `d < 10`). -/
def digitCh (d : Nat) : Char := Char.ofNat (48 + d)

/-- JS `String(n)` for a natural number. -/
def natStr (n : Nat) : String := ⟨(decDigits n).map digitCh⟩

/-- JS `s.padStart(w, '0')`: left-pad with `'0'` up to length `w`. -/
def padStartZ (w : Nat) (s : String) : String :=
  ⟨List.replicate (w - s.data.length) '0' ++ s.data⟩

/-! ## Big-endian fixed-width digits

`digitsBE w n` is the list of the `w` least significant decimal digits of `n`,
most significant first.  For `n < 10 ^ w` this is exactly the zero-padded
width-`w` decimal representation of `n`. -/

def digitsBE : Nat → Nat → List Nat
  | 0, _ => []
  | w + 1, n => n / 10 ^ w :: digitsBE w (n % 10 ^ w)

@[simp] theorem digitsBE_length (w : Nat) : ∀ n, (digitsBE w n).length = w := by
  induction w with
  | zero => intro n; rfl
  | succ w ih => intro n; simpa [digitsBE] using ih (n % 10 ^ w)

theorem digitsBE_zero (w : Nat) : digitsBE w 0 = List.replicate w 0 := by
  induction w with
  | zero => rfl
  | succ w ih => simp [digitsBE, Nat.zero_div, Nat.zero_mod, ih, List.replicate_succ]

theorem digitsBE_snoc : ∀ (w n : Nat), n < 10 ^ (w + 1) →
    digitsBE (w + 1) n = digitsBE w (n / 10) ++ [n % 10] := by
  intro w
  induction w with
  | zero =>
    intro n hn
    have : n % 10 = n := Nat.mod_eq_of_lt (by simpa using hn)
    simp [digitsBE, this, Nat.div_eq_of_lt (by simpa using hn)]
  | succ w ih =>
    intro n _
    have hmod : n % 10 ^ (w + 1) < 10 ^ (w + 1) :=
      Nat.mod_lt _ (Nat.pos_pow_of_pos _ (by omega))
    have h1 : n / 10 ^ (w + 1) = n / 10 / 10 ^ w := by
      rw [Nat.div_div_eq_div_mul]
      congr 1
      rw [Nat.pow_succ, Nat.mul_comm]
    have h2 : n % 10 ^ (w + 1) % 10 = n % 10 := by
      apply Nat.mod_mod_of_dvd
      exact ⟨10 ^ w, by rw [Nat.pow_succ, Nat.mul_comm]⟩
    have h3 : n % 10 ^ (w + 1) / 10 = n / 10 % 10 ^ w := by
      rw [Nat.pow_succ, Nat.mul_comm, Nat.mod_mul_right_div_self]
    show n / 10 ^ (w + 1) :: digitsBE (w + 1) (n % 10 ^ (w + 1)) =
      digitsBE (w + 1) (n / 10) ++ [n % 10]
    rw [ih (n % 10 ^ (w + 1)) hmod, h2, h3]
    show _ = (n / 10 / 10 ^ w :: digitsBE w (n / 10 % 10 ^ w)) ++ [n % 10]
    rw [← h1]
    simp

theorem decDigits_nonempty (n : Nat) : (decDigits n).length ≥ 1 := by
  rw [decDigits_eq]
  by_cases h : n < 10
  · simp [h]
  · simp [h]

/-- Zero-padding the decimal digits of `n` out to width `w` gives the
fixed-width big-endian digit list. -/
theorem pad_decDigits : ∀ (w : Nat), 1 ≤ w → ∀ n, n < 10 ^ w →
    List.replicate (w - (decDigits n).length) 0 ++ decDigits n = digitsBE w n := by
  intro w
  induction w with
  | zero => omega
  | succ w ih =>
    intro _ n hn
    by_cases h : n < 10
    · rw [decDigits_eq, if_pos h]
      have h10 : n / 10 = 0 := Nat.div_eq_of_lt h
      have hm : n % 10 = n := Nat.mod_eq_of_lt h
      rw [digitsBE_snoc w n hn, h10, hm, digitsBE_zero]
      simp
    · have hw : 1 ≤ w := by
        by_contra hw
        have : w = 0 := by omega
        subst this
        simp at hn
        omega
      have hdivlt : n / 10 < 10 ^ w := by
        rw [Nat.div_lt_iff_lt_mul (by omega)]
        calc n < 10 ^ (w + 1) := hn
        _ = 10 ^ w * 10 := by rw [Nat.pow_succ]
      rw [decDigits_eq, if_neg h]
      have hlen : (decDigits (n / 10) ++ [n % 10]).length
          = (decDigits (n / 10)).length + 1 := by simp
      have harith : w + 1 - ((decDigits (n / 10)).length + 1)
          = w - (decDigits (n / 10)).length := by omega
      rw [hlen, harith, digitsBE_snoc w n hn, ← ih hw (n / 10) hdivlt,
        ← List.append_assoc]

theorem digitsBE_head_lt (w n : Nat) (hn : n < 10 ^ (w + 1)) : n / 10 ^ w < 10 := by
  rw [Nat.div_lt_iff_lt_mul (Nat.pos_pow_of_pos _ (by omega))]
  calc n < 10 ^ (w + 1) := hn
  _ = 10 * 10 ^ w := by rw [Nat.pow_succ, Nat.mul_comm]

theorem digitsBE_mem_lt : ∀ (w n : Nat), n < 10 ^ w → ∀ x ∈ digitsBE w n, x < 10 := by
  intro w
  induction w with
  | zero => intro n _ x hx; simp [digitsBE] at hx
  | succ w ih =>
    intro n hn x hx
    simp only [digitsBE, List.mem_cons] at hx
    rcases hx with hx | hx
    · subst hx; exact digitsBE_head_lt w n hn
    · exact ih (n % 10 ^ w) (Nat.mod_lt _ (Nat.pos_pow_of_pos _ (by omega))) x hx

/-- Fixed-width big-endian digit lists compare lexicographically as the
numbers they denote. -/
theorem digitsBE_lex : ∀ (w a b : Nat), a < b → b < 10 ^ w →
    List.Lex (· < ·) (digitsBE w a) (digitsBE w b) := by
  intro w
  induction w with
  | zero => intro a b hab hb; simp at hb; omega
  | succ w ih =>
    intro a b hab hb
    have ha : a < 10 ^ (w + 1) := by omega
    have hda : a / 10 ^ w ≤ b / 10 ^ w := Nat.div_le_div_right (by omega)
    simp only [digitsBE]
    rcases Nat.lt_or_ge (a / 10 ^ w) (b / 10 ^ w) with hlt | hge
    · exact List.Lex.rel hlt
    · have heq : a / 10 ^ w = b / 10 ^ w := by omega
      rw [heq]
      apply List.Lex.cons
      apply ih
      · have h1 := Nat.div_add_mod a (10 ^ w)
        have h2 := Nat.div_add_mod b (10 ^ w)
        rw [heq] at h1
        omega
      · exact Nat.mod_lt _ (Nat.pos_pow_of_pos _ (by omega))

theorem digitCh_lt_digitCh : ∀ d, d < 10 → ∀ e, e < 10 → d < e → digitCh d < digitCh e := by
  decide

theorem lex_map_digitCh {ds es : List Nat} (h : List.Lex (· < ·) ds es)
    (hds : ∀ x ∈ ds, x < 10) (hes : ∀ x ∈ es, x < 10) :
    List.Lex (· < ·) (ds.map digitCh) (es.map digitCh) := by
  induction h with
  | nil => exact List.Lex.nil
  | @cons a l₁ l₂ h ih =>
    exact List.Lex.cons (ih (fun x hx => hds x (List.mem_cons_of_mem _ hx))
      (fun x hx => hes x (List.mem_cons_of_mem _ hx)))
  | @rel a₁ l₁ a₂ l₂ h =>
    exact List.Lex.rel (digitCh_lt_digitCh a₁ (hds a₁ (List.mem_cons_self _ _))
      a₂ (hes a₂ (List.mem_cons_self _ _)) h)

theorem lex_append_same {α : Type} {r : α → α → Prop} :
    ∀ (p : List α) {xs ys : List α}, List.Lex r xs ys →
      List.Lex r (p ++ xs) (p ++ ys) := by
  intro p
  induction p with
  | nil => intro xs ys h; simpa using h
  | cons a p ih => intro xs ys h; exact List.Lex.cons (ih h)

theorem lex_append_of_length_eq {α : Type} {r : α → α → Prop} :
    ∀ {as bs : List α}, as.length = bs.length → List.Lex r as bs →
      ∀ (u v : List α), List.Lex r (as ++ u) (bs ++ v) := by
  intro as bs hlen h
  induction h with
  | nil => simp at hlen
  | @cons a l₁ l₂ h ih =>
    intro u v
    simp only [List.length_cons, Nat.add_right_cancel_iff] at hlen
    exact List.Lex.cons (ih hlen u v)
  | @rel a₁ l₁ a₂ l₂ h =>
    intro u v
    exact List.Lex.rel h

/-! ## Backup key generation

Embedding of the file server's reverse-epoch backup naming:

```
const MAX_EPOCH_SECONDS = Math.floor(new Date('2125-01-01T00:00:00Z').getTime() / 1000);
const REV_SECONDS_WIDTH = String(MAX_EPOCH_SECONDS).length;
```

`Date('2125-01-01T00:00:00Z').getTime() / 1000 = 4891363200` (56613 days of
86400 seconds from the Unix epoch).  Timestamps are modelled in whole epoch
seconds (the source floors milliseconds to seconds before use). -/

def MAX_EPOCH_SECONDS : Nat := 4891363200

def REV_SECONDS_WIDTH : Nat := (natStr MAX_EPOCH_SECONDS).data.length

theorem REV_SECONDS_WIDTH_eq : REV_SECONDS_WIDTH = 10 := by decide

/-- Gregorian civil date (year, month, day) from a day count since 1970-01-01,
the arithmetic behind the JS `Date` UTC accessors for non-negative epochs. -/
def civilFromDays (z : Nat) : Nat × Nat × Nat :=
  let z' := z + 719468
  let era := z' / 146097
  let doe := z' % 146097
  let yoe := (doe - doe / 1460 + doe / 36524 - doe / 146096) / 365
  let y := yoe + era * 400
  let doy := doe - (365 * yoe + yoe / 4 - yoe / 100)
  let mp := (5 * doy + 2) / 153
  let dd := doy - (153 * mp + 2) / 5 + 1
  let m := if mp < 10 then mp + 3 else mp - 9
  (if m ≤ 2 then y + 1 else y, m, dd)

/-- Embedding of `formatUTCDateYYYYMMDDHH`: UTC year (unpadded, 4 digits in
this era), then month, day and hour each `padStart(2, '0')`-ed. -/
def formatUTCDateYYYYMMDDHH (t : Nat) : String :=
  let ymd := civilFromDays (t / 86400)
  let yyyy := natStr ymd.1
  let MM := padStartZ 2 (natStr ymd.2.1)
  let dd := padStartZ 2 (natStr ymd.2.2)
  let HH := padStartZ 2 (natStr (t % 86400 / 3600))
  yyyy ++ MM ++ dd ++ HH

/-- Embedding of `generateBackupKey(dirName, at)` (file server):

```
const nowSeconds = Math.floor(at.getTime() / 1000);
const reverseEpochSeconds = MAX_EPOCH_SECONDS - nowSeconds;
const reversePart = String(reverseEpochSeconds).padStart(REV_SECONDS_WIDTH, '0');
const datePart = formatUTCDateYYYYMMDDHH(at);
return `backups/${reversePart}_${datePart}_${dirName}.tar.gz`;
```

`atSeconds` is the timestamp in whole epoch seconds. -/
def generateBackupKey (dirName : String) (atSeconds : Nat) : String :=
  let reverseEpochSeconds := MAX_EPOCH_SECONDS - atSeconds
  let reversePart := padStartZ REV_SECONDS_WIDTH (natStr reverseEpochSeconds)
  let datePart := formatUTCDateYYYYMMDDHH atSeconds
  "backups/" ++ reversePart ++ "_" ++ datePart ++ "_" ++ dirName ++ ".tar.gz"

theorem padStartZ_natStr_data (n : Nat) (hn : n < 10 ^ 10) :
    (padStartZ 10 (natStr n)).data = (digitsBE 10 n).map digitCh := by
  show List.replicate (10 - ((decDigits n).map digitCh).length) '0'
      ++ (decDigits n).map digitCh = _
  rw [List.length_map]
  have h0 : ('0' : Char) = digitCh 0 := rfl
  rw [h0, ← List.map_replicate, ← List.map_append, pad_decDigits 10 (by omega) n hn]

/-- C2: for the same directory and timestamps `t₁ < t₂` (whole epoch seconds,
both at most `MAX_EPOCH_SECONDS`), the key generated at the later time `t₂` is
strictly lexicographically smaller than the key generated at `t₁`; ascending
lexicographic listing of `backups/` therefore yields newest-first. -/
theorem generateBackupKey_newest_first (d : String) (t₁ t₂ : Nat)
    (h12 : t₁ < t₂) (h2 : t₂ ≤ MAX_EPOCH_SECONDS) :
    generateBackupKey d t₂ < generateBackupKey d t₁ := by
  have hM : MAX_EPOCH_SECONDS = 4891363200 := rfl
  have hpow : (10 : Nat) ^ 10 = 10000000000 := by norm_num
  have hb : MAX_EPOCH_SECONDS - t₁ < 10 ^ 10 := by omega
  have ha : MAX_EPOCH_SECONDS - t₂ < 10 ^ 10 := by omega
  have hab : MAX_EPOCH_SECONDS - t₂ < MAX_EPOCH_SECONDS - t₁ := by omega
  rw [String.lt_iff_toList_lt]
  show List.Lex (· < ·) (generateBackupKey d t₂).data (generateBackupKey d t₁).data
  simp only [generateBackupKey, REV_SECONDS_WIDTH_eq, String.data_append,
    List.append_assoc]
  rw [padStartZ_natStr_data (MAX_EPOCH_SECONDS - t₂) ha,
    padStartZ_natStr_data (MAX_EPOCH_SECONDS - t₁) hb]
  apply lex_append_same
  apply lex_append_of_length_eq (by simp)
  exact lex_map_digitCh (digitsBE_lex 10 _ _ hab hb)
    (digitsBE_mem_lt 10 _ ha) (digitsBE_mem_lt 10 _ hb)

/-- Witness for `generateBackupKey_newest_first` at concrete timestamps. -/
theorem generateBackupKey_newest_first_witness :
    (1700000000 : Nat) < 1700000001 ∧ (1700000001 : Nat) ≤ MAX_EPOCH_SECONDS ∧
      generateBackupKey "data" 1700000001 < generateBackupKey "data" 1700000000 :=
  ⟨by omega, by decide,
    generateBackupKey_newest_first "data" 1700000000 1700000001 (by omega) (by decide)⟩

/-! ## File server: retry and multipart download

Constants from the file server source. -/

def MAX_RETRIES : Nat := 3
def LARGE_FILE_THRESHOLD : Nat := 100 * 1024 * 1024
def DOWNLOAD_CHUNK_SIZE : Nat := 50 * 1024 * 1024
def MAX_CONCURRENT_DOWNLOADS : Nat := 5

/-- First successful attempt among `remaining` attempts starting at attempt
number `a`; `none` when every attempt fails. -/
def firstSuccessFrom (attempts : Nat → Option (List Nat)) :
    Nat → Nat → Option (List Nat)
  | 0, _ => none
  | remaining + 1, a =>
    match attempts a with
    | some bytes => some bytes
    | none => firstSuccessFrom attempts remaining (a + 1)

/-- Embedding of `downloadRangeWithRetry`: the loop
`for (attempt = 1; attempt <= MAX_RETRIES; attempt++)` returns the body of the
first successful fetch of the byte range and throws (here: `none`) once all
`MAX_RETRIES` attempts have failed.  The oracle `attempts` gives the outcome
of each network attempt. -/
def downloadRangeWithRetry (attempts : Nat → Option (List Nat)) :
    Option (List Nat) :=
  firstSuccessFrom attempts MAX_RETRIES 1

/-- Sequential model of awaiting every part download: all-or-nothing, parts
concatenated in index order (the reconstitution loop writes `.part i` files
in order into the target file). -/
def collectParts (f : Nat → Option (List Nat)) : List Nat → Option (List Nat)
  | [] => some []
  | i :: is =>
    match f i, collectParts f is with
    | some bytes, some rest => some (bytes ++ rest)
    | _, _ => none

/-- `Math.ceil(fileSize / DOWNLOAD_CHUNK_SIZE)`. -/
def numParts (fileSize : Nat) : Nat :=
  (fileSize + DOWNLOAD_CHUNK_SIZE - 1) / DOWNLOAD_CHUNK_SIZE

/-- `start = i * DOWNLOAD_CHUNK_SIZE` for 0-based part `i`. -/
def partStart (i : Nat) : Nat := i * DOWNLOAD_CHUNK_SIZE

/-- `end = Math.min(start + DOWNLOAD_CHUNK_SIZE - 1, fileSize - 1)`. -/
def partEnd (fileSize i : Nat) : Nat :=
  min (partStart i + DOWNLOAD_CHUNK_SIZE - 1) (fileSize - 1)

/-- Embedding of `downloadLargeFile`: download each of the `numParts` ranges
(each range via `downloadRangeWithRetry`, with `chunkAttempt i a` the outcome
of attempt `a` on part `i`), then reconstitute the file by concatenating the
parts in order.  A failed part rejects the whole download.  The bounded
concurrency (batches of `MAX_CONCURRENT_DOWNLOADS`) does not affect the
result: `Promise.all` fails if any part of a batch fails, and later batches
then never run, so the download succeeds iff every part succeeds. -/
def downloadLargeFile (fileSize : Nat)
    (chunkAttempt : Nat → Nat → Option (List Nat)) : Option (List Nat) :=
  collectParts (fun i => downloadRangeWithRetry (chunkAttempt i))
    (List.range (numParts fileSize))

/-- The bytes `[s, e]` (inclusive) of a payload, as an HTTP range request
returns them. -/
def byteRange (payload : List Nat) (s e : Nat) : List Nat :=
  (payload.drop s).take (e + 1 - s)

/-- The true content of part `i` of a payload: the bytes of the range the
source requests for part `i`. -/
def honestChunk (payload : List Nat) (i : Nat) : List Nat :=
  byteRange payload (partStart i) (partEnd payload.length i)

theorem firstSuccessFrom_succ (attempts : Nat → Option (List Nat))
    (r a : Nat) :
    firstSuccessFrom attempts (r + 1) a
      = match attempts a with
        | some bytes => some bytes
        | none => firstSuccessFrom attempts r (a + 1) := rfl

theorem downloadRangeWithRetry_none (attempts : Nat → Option (List Nat))
    (h : ∀ a, 1 ≤ a → a ≤ MAX_RETRIES → attempts a = none) :
    downloadRangeWithRetry attempts = none := by
  have h1 := h 1 (by omega) (by decide)
  have h2 := h 2 (by omega) (by decide)
  have h3 := h 3 (by omega) (by decide)
  show firstSuccessFrom attempts 3 1 = none
  rw [firstSuccessFrom_succ, h1]
  rw [firstSuccessFrom_succ, h2]
  rw [firstSuccessFrom_succ, h3]
  rfl

theorem collectParts_none (f : Nat → Option (List Nat)) :
    ∀ (l : List Nat) (i : Nat), i ∈ l → f i = none → collectParts f l = none := by
  intro l
  induction l with
  | nil => intro i hi; simp at hi
  | cons j js ih =>
    intro i hi hf
    rcases List.mem_cons.mp hi with h | h
    · subst h
      simp [collectParts, hf]
    · simp only [collectParts, ih i h hf]
      cases f j <;> rfl

theorem collectParts_eq_some (f : Nat → Option (List Nat)) (g : Nat → List Nat) :
    ∀ (l : List Nat), (∀ i ∈ l, f i = some (g i)) →
      collectParts f l = some ((l.map g).flatten) := by
  intro l
  induction l with
  | nil => intro _; rfl
  | cons j js ih =>
    intro h
    simp only [collectParts, h j (List.mem_cons_self _ _),
      ih (fun i hi => h i (List.mem_cons_of_mem _ hi)), List.map_cons,
      List.flatten_cons]

theorem honestChunk_zero (payload : List Nat) (h : 1 ≤ payload.length) :
    honestChunk payload 0 = payload.take (min DOWNLOAD_CHUNK_SIZE payload.length) := by
  have hC : DOWNLOAD_CHUNK_SIZE = 52428800 := rfl
  simp only [honestChunk, byteRange, partStart, partEnd, List.drop_zero]
  congr 1
  omega

theorem honestChunk_succ (payload : List Nat) (i : Nat)
    (hN : DOWNLOAD_CHUNK_SIZE < payload.length) :
    honestChunk payload (i + 1) = honestChunk (payload.drop DOWNLOAD_CHUNK_SIZE) i := by
  have hC : DOWNLOAD_CHUNK_SIZE = 52428800 := rfl
  have hdrop : payload.drop (partStart (i + 1))
      = (payload.drop DOWNLOAD_CHUNK_SIZE).drop (partStart i) := by
    rw [List.drop_drop]
    have h : DOWNLOAD_CHUNK_SIZE + partStart i = partStart (i + 1) := by
      simp only [partStart]
      ring
    rw [h]
  have hamt : partEnd payload.length (i + 1) + 1 - partStart (i + 1)
      = partEnd (payload.drop DOWNLOAD_CHUNK_SIZE).length i + 1 - partStart i := by
    simp only [partEnd, partStart, List.length_drop, hC]
    omega
  simp only [honestChunk, byteRange]
  rw [hdrop, hamt]

/-- Concatenating the true range contents of all `numParts` parts, in index
order, rebuilds the payload byte-for-byte. -/
theorem honestChunks_flatten : ∀ (N : Nat) (payload : List Nat), payload.length = N →
    ((List.range (numParts payload.length)).map (honestChunk payload)).flatten
      = payload := by
  have hC : DOWNLOAD_CHUNK_SIZE = 52428800 := rfl
  intro N
  induction N using Nat.strong_induction_on with
  | _ N ih =>
    intro payload hlen
    rcases Nat.eq_zero_or_pos N with h0 | hpos
    · subst h0
      have hnil : payload = [] := List.eq_nil_of_length_eq_zero hlen
      subst hnil
      have hnp : numParts 0 = 0 := by
        simp only [numParts]
        exact Nat.div_eq_of_lt (by omega)
      simp [hnp]
    · have hCpos : 0 < DOWNLOAD_CHUNK_SIZE := by omega
      rcases le_or_lt N DOWNLOAD_CHUNK_SIZE with hsmall | hbig
      · have hk : numParts N = 1 := by
          simp only [numParts]
          rw [show N + DOWNLOAD_CHUNK_SIZE - 1 = (N - 1) + DOWNLOAD_CHUNK_SIZE
              from by omega,
            Nat.add_div_right _ hCpos, Nat.div_eq_of_lt (by omega)]
        rw [hlen, hk, show List.range 1 = [0] from rfl]
        simp only [List.map_cons, List.map_nil,
          List.flatten_cons, List.flatten_nil, List.append_nil]
        rw [honestChunk_zero payload (by omega)]
        have hmin : min DOWNLOAD_CHUNK_SIZE payload.length = payload.length := by
          omega
        rw [hmin, List.take_length]
      · have hk : numParts N = numParts (N - DOWNLOAD_CHUNK_SIZE) + 1 := by
          simp only [numParts]
          rw [show N + DOWNLOAD_CHUNK_SIZE - 1
              = (N - DOWNLOAD_CHUNK_SIZE - 1) + DOWNLOAD_CHUNK_SIZE + DOWNLOAD_CHUNK_SIZE
              from by omega,
            show N - DOWNLOAD_CHUNK_SIZE + DOWNLOAD_CHUNK_SIZE - 1
              = (N - DOWNLOAD_CHUNK_SIZE - 1) + DOWNLOAD_CHUNK_SIZE from by omega,
            Nat.add_div_right _ hCpos, Nat.add_div_right _ hCpos]
        have hdroplen : (payload.drop DOWNLOAD_CHUNK_SIZE).length
            = N - DOWNLOAD_CHUNK_SIZE := by
          rw [List.length_drop, hlen]
        rw [hlen, hk, List.range_succ_eq_map]
        rw [List.map_cons, List.flatten_cons, List.map_map]
        have htail : ∀ i, (honestChunk payload ∘ Nat.succ) i
            = honestChunk (payload.drop DOWNLOAD_CHUNK_SIZE) i := by
          intro i
          exact honestChunk_succ payload i (by omega)
        have hmapeq : List.map (honestChunk payload ∘ Nat.succ)
              (List.range (numParts (N - DOWNLOAD_CHUNK_SIZE)))
            = List.map (honestChunk (payload.drop DOWNLOAD_CHUNK_SIZE))
              (List.range (numParts (N - DOWNLOAD_CHUNK_SIZE))) :=
          List.map_congr_left (fun i _ => htail i)
        rw [hmapeq]
        have hihtail := ih (N - DOWNLOAD_CHUNK_SIZE) (by omega)
          (payload.drop DOWNLOAD_CHUNK_SIZE) hdroplen
        rw [hdroplen] at hihtail
        rw [hihtail, honestChunk_zero payload (by omega)]
        have hmin : min DOWNLOAD_CHUNK_SIZE payload.length = DOWNLOAD_CHUNK_SIZE := by
          omega
        rw [hmin, List.take_append_drop]

/-- C6: splitting an `N`-byte payload into `DOWNLOAD_CHUNK_SIZE`-sized ranges
(part `i` covering bytes `[i*C, min(i*C + C - 1, N - 1)]`, `numParts = ⌈N/C⌉`
parts) and reconstituting the downloaded parts in index order yields the
payload byte-for-byte, for every `N` (including 0, C-1, C, C+1, 10·C). -/
theorem multipart_reconstruction_identity (payload : List Nat) :
    downloadLargeFile payload.length (fun i _ => some (honestChunk payload i))
      = some payload := by
  have h := collectParts_eq_some
    (fun i => downloadRangeWithRetry ((fun i (_ : Nat) => some (honestChunk payload i)) i))
    (honestChunk payload) (List.range (numParts payload.length)) (fun i _ => rfl)
  unfold downloadLargeFile
  rw [h, honestChunks_flatten payload.length payload rfl]

/-! ## File server: restore handler -/

/-- JS `s.startsWith(p)`. -/
def jsStartsWith (s p : String) : Bool := s.data.take p.data.length == p.data

/-- JS `s.includes(sub)`: `sub` occurs as a contiguous substring of `s`. -/
def jsIncludes (s sub : String) : Bool :=
  (List.range (s.data.length + 1)).any
    (fun i => (s.data.drop i).take sub.data.length == sub.data)

/-- Oracle for the external effects of one restore request: S3 client
creation (environment credentials), the `HEAD` request, the outcome of every
ranged-GET attempt (multipart path), the body of the simple download, and the
exit code of the extraction `tar` process. -/
structure RestoreEnv where
  credsOk : Bool
  headOk : Bool
  headSize : Nat
  chunkAttempt : Nat → Nat → Option (List Nat)
  simpleBody : Option (List Nat)
  tarExit : Nat

/-- Observable outcome of `handleRestore`: HTTP status, success flag of the
JSON body, which external effects were invoked, and the reported size. -/
structure RestoreOutcome where
  status : Nat
  success : Bool
  headRequested : Bool
  downloadAttempted : Bool
  extractionInvoked : Bool
  reportedSize : Nat
  deriving Repr, DecidableEq

/-- The download step of `handleRestore`: multipart for
`fileSize >= LARGE_FILE_THRESHOLD`, otherwise a single simple GET. -/
def restoreDownload (env : RestoreEnv) : Option (List Nat) :=
  if LARGE_FILE_THRESHOLD ≤ env.headSize then
    downloadLargeFile env.headSize env.chunkAttempt
  else env.simpleBody

/-- Embedding of `FileServer.handleRestore(pathname, backupFilename)`.

Control flow as in the source: create the S3 client (throws on missing
credentials), validate the backup filename (reject on `".."` or a filename
not starting with `"backups/"`), `HEAD` the object (404 when absent),
download (multipart or simple), then extract.  The downloaded size is
compared with the `HEAD` size, but a mismatch is only logged
(`console.error(... WARNING ...)`) — the handler then proceeds to
extraction unconditionally.  Any thrown error is caught and returned as a
500 response. -/
def handleRestore (backupFilename : String) (env : RestoreEnv) : RestoreOutcome :=
  if env.credsOk = false then
    ⟨500, false, false, false, false, 0⟩
  else if jsIncludes backupFilename ".." || !jsStartsWith backupFilename "backups/" then
    ⟨400, false, false, false, false, 0⟩
  else if env.headOk = false then
    ⟨404, false, true, false, false, 0⟩
  else
    match restoreDownload env with
    | none => ⟨500, false, true, true, false, 0⟩
    | some bytes =>
      if env.tarExit ≠ 0 then ⟨500, false, true, true, true, 0⟩
      else ⟨200, true, true, true, true, bytes.length⟩

/-- A restore oracle in which the object store reports 5 bytes but the
(simple-path) download returns only 3 bytes, and extraction succeeds. -/
def sizeMismatchEnv : RestoreEnv :=
  { credsOk := true, headOk := true, headSize := 5,
    chunkAttempt := fun _ _ => none, simpleBody := some [1, 2, 3], tarExit := 0 }

/-- C1 counterexample: a restore whose reconstructed temp file size (3)
differs from the HEAD-reported size (5) does NOT surface an error and IS
extracted — the handler returns HTTP 200 with `success: true` and invokes
extraction, refuting the claim that such a restore surfaces a Corrupt-type
error with no extraction. -/
theorem handleRestore_size_mismatch_cex :
    (restoreDownload sizeMismatchEnv).map List.length ≠ some sizeMismatchEnv.headSize ∧
    handleRestore "backups/1_data.tar.gz" sizeMismatchEnv
      = ⟨200, true, true, true, true, 3⟩ := by
  constructor
  · decide
  · decide

/-- C1 (amended): when the size of the reconstructed temp file differs from
the size reported by the `HEAD` request, the mismatch is only logged: the
archive is still extracted into the target directory, the outcome depends
solely on the tar exit code, and a succeeding extraction yields a success
response reporting the downloaded (mismatched) size. -/
theorem handleRestore_mismatch_proceeds (f : String) (env : RestoreEnv)
    (bytes : List Nat)
    (hc : env.credsOk = true)
    (hval : (jsIncludes f ".." || !jsStartsWith f "backups/") = false)
    (hh : env.headOk = true)
    (hdl : restoreDownload env = some bytes)
    (hmis : bytes.length ≠ env.headSize) :
    (handleRestore f env).extractionInvoked = true ∧
    ((handleRestore f env).success = true ↔ env.tarExit = 0) ∧
    (env.tarExit = 0 → (handleRestore f env).reportedSize = bytes.length) := by
  simp only [handleRestore, hc, hval, hh, hdl]
  by_cases h : env.tarExit = 0 <;> simp [h]

/-- Witness for `handleRestore_mismatch_proceeds` at the concrete mismatch
oracle. -/
theorem handleRestore_mismatch_proceeds_witness :
    restoreDownload sizeMismatchEnv = some [1, 2, 3] ∧
    ([1, 2, 3] : List Nat).length ≠ sizeMismatchEnv.headSize ∧
    (handleRestore "backups/1_data.tar.gz" sizeMismatchEnv).extractionInvoked = true :=
  ⟨by decide, by decide,
    (handleRestore_mismatch_proceeds "backups/1_data.tar.gz" sizeMismatchEnv
      [1, 2, 3] (by decide) (by decide) (by decide) (by decide) (by decide)).1⟩

/-- C3: in a multipart restore (HEAD size at or above the large-file
threshold), if any single chunk download fails on all `MAX_RETRIES` attempts,
the whole restore returns a 500 error response and tar extraction is never
invoked — no partial extraction. -/
theorem multipart_chunk_failure_aborts (f : String) (env : RestoreEnv) (i : Nat)
    (hc : env.credsOk = true)
    (hval : (jsIncludes f ".." || !jsStartsWith f "backups/") = false)
    (hh : env.headOk = true)
    (hlarge : LARGE_FILE_THRESHOLD ≤ env.headSize)
    (hi : i < numParts env.headSize)
    (hfail : ∀ a, 1 ≤ a → a ≤ MAX_RETRIES → env.chunkAttempt i a = none) :
    handleRestore f env = ⟨500, false, true, true, false, 0⟩ := by
  have hdl : restoreDownload env = none := by
    simp only [restoreDownload, if_pos hlarge, downloadLargeFile]
    exact collectParts_none _ _ i (List.mem_range.mpr hi)
      (downloadRangeWithRetry_none _ hfail)
  simp [handleRestore, hc, hval, hh, hdl]

/-- A restore oracle for a large object (exactly the threshold size, hence
two 50MB chunks) in which every chunk download attempt fails. -/
def allChunksFailEnv : RestoreEnv :=
  { credsOk := true, headOk := true, headSize := LARGE_FILE_THRESHOLD,
    chunkAttempt := fun _ _ => none, simpleBody := none, tarExit := 0 }

/-- Witness for `multipart_chunk_failure_aborts` at the concrete oracle. -/
theorem multipart_chunk_failure_aborts_witness :
    LARGE_FILE_THRESHOLD ≤ allChunksFailEnv.headSize ∧
    0 < numParts allChunksFailEnv.headSize ∧
    handleRestore "backups/1_data.tar.gz" allChunksFailEnv
      = ⟨500, false, true, true, false, 0⟩ :=
  ⟨by decide, by decide,
    multipart_chunk_failure_aborts "backups/1_data.tar.gz" allChunksFailEnv 0
      rfl (by decide) rfl (by decide) (by decide) (fun _ _ _ => rfl)⟩

/-- C9: a restore request whose backup filename contains `".."` or does not
start with `"backups/"` is rejected with HTTP 400: no HEAD request, no
download, no extraction — nothing is fetched from the object store and
nothing is written to the filesystem. -/
theorem handleRestore_path_traversal_guard (f : String) (env : RestoreEnv)
    (hc : env.credsOk = true)
    (hbad : jsIncludes f ".." = true ∨ jsStartsWith f "backups/" = false) :
    handleRestore f env = ⟨400, false, false, false, false, 0⟩ := by
  have hval : (jsIncludes f ".." || !jsStartsWith f "backups/") = true := by
    rcases hbad with h | h <;> simp [h]
  simp [handleRestore, hc, hval]

/-- Witness for `handleRestore_path_traversal_guard` on a traversal
filename. -/
theorem handleRestore_path_traversal_guard_witness :
    jsIncludes "backups/../etc" ".." = true ∧
    handleRestore "backups/../etc"
        { credsOk := true, headOk := true, headSize := 0,
          chunkAttempt := fun _ _ => none, simpleBody := none, tarExit := 0 }
      = ⟨400, false, false, false, false, 0⟩ :=
  ⟨by decide,
    handleRestore_path_traversal_guard _ _ rfl (Or.inl (by decide))⟩

/-! ## File server: backup handler and background jobs -/

/-- `directory.split("/").filter(Boolean).pop() || "backup"`. -/
def dirNameOf (directory : String) : String :=
  (((directory.splitOn "/").filter (fun s => s != "")).getLast?).getD "backup"

/-- Oracle for the external effects of one backup: S3 client creation, the
archiver (`tar -czf`) exit code, the archive size reported by `stat`, and the
outcome of the S3 upload. -/
structure BackupEnv where
  credsOk : Bool
  tarExit : Nat
  archiveSize : Nat
  uploadOk : Bool

/-- Observable outcome of `handleBackup`: HTTP status, success flag, whether
`s3Client.write` was invoked, and the reported backup path/size. -/
structure BackupOutcome where
  status : Nat
  success : Bool
  uploadInvoked : Bool
  reportedPath : String
  reportedSize : Nat
  deriving Repr, DecidableEq

/-- Embedding of `FileServer.handleBackup(pathname)` at time `now` (epoch
seconds): create the S3 client, generate the reverse-epoch key, run
`tar -czf`; a non-zero tar exit throws (caught as a 500 response) before the
upload; otherwise the archive is uploaded with `s3Client.write` (an upload
failure is also caught as a 500, but after the write was invoked). -/
def handleBackup (pathname : String) (now : Nat) (env : BackupEnv) : BackupOutcome :=
  let directory := if jsStartsWith pathname "/" then pathname else "/" ++ pathname
  if env.credsOk = false then
    ⟨500, false, false, "", 0⟩
  else
    let backupFilename := generateBackupKey (dirNameOf directory) now
    if env.tarExit ≠ 0 then
      ⟨500, false, false, "", 0⟩
    else if env.uploadOk then
      ⟨200, true, true, backupFilename, env.archiveSize⟩
    else
      ⟨500, false, true, "", 0⟩

/-- Background job states. -/
inductive JobStatus
  | pending
  | running
  | success
  | failed
  deriving Repr, DecidableEq

/-- Final state of one background backup job execution
(`FileServer.executeBackupJob`). -/
structure JobFinal where
  status : JobStatus
  uploadInvoked : Bool
  resultPath : Option String
  resultSize : Option Nat
  errorPresent : Bool
  deriving Repr, DecidableEq

/-- Embedding of `FileServer.executeBackupJob` for a job on `directory`
created at time `now`: same pipeline as `handleBackup`, but recording the
outcome in the job entry — a failure at any step (credentials, tar, upload)
marks the job `failed` with an error message; a non-zero tar exit throws
before `s3Client.write` is invoked. -/
def executeBackupJob (directory : String) (now : Nat) (env : BackupEnv) : JobFinal :=
  if env.credsOk = false then
    ⟨.failed, false, none, none, true⟩
  else
    let backupFilename := generateBackupKey (dirNameOf directory) now
    if env.tarExit ≠ 0 then
      ⟨.failed, false, none, none, true⟩
    else if env.uploadOk then
      ⟨.success, true, some backupFilename, some env.archiveSize, false⟩
    else
      ⟨.failed, true, none, none, true⟩

/-- C4: whenever the tar archiver exits non-zero, the synchronous backup
handler returns a 500 error response and the background job execution ends
`failed` — and in both cases `s3Client.write` is never invoked, so nothing
is uploaded to the object store. -/
theorem tar_failure_uploads_nothing (pathname directory : String) (now : Nat)
    (env : BackupEnv) (hc : env.credsOk = true) (ht : env.tarExit ≠ 0) :
    handleBackup pathname now env = ⟨500, false, false, "", 0⟩ ∧
    executeBackupJob directory now env = ⟨.failed, false, none, none, true⟩ := by
  constructor
  · simp [handleBackup, hc, ht]
  · simp [executeBackupJob, hc, ht]

/-- Witness for `tar_failure_uploads_nothing` with tar exit code 2. -/
theorem tar_failure_uploads_nothing_witness :
    (2 : Nat) ≠ 0 ∧
    handleBackup "/data" 1700000000
        { credsOk := true, tarExit := 2, archiveSize := 0, uploadOk := true }
      = ⟨500, false, false, "", 0⟩ :=
  ⟨by decide,
    (tar_failure_uploads_nothing "/data" "/data" 1700000000
      { credsOk := true, tarExit := 2, archiveSize := 0, uploadOk := true }
      rfl (by decide)).1⟩

/-! ## Background backup job table

`FileServer.backupJobs` is a `Map<string, job>`; keys are only ever inserted
or overwritten (`set`), never deleted.  `handleBackgroundBackupStart` is
modelled as a pure step on an association-list table. -/

/-- One entry of the `backupJobs` map. -/
structure Job where
  id : String
  directory : String
  status : JobStatus
  startedAt : Nat
  completedAt : Option Nat
  deriving Repr, DecidableEq

/-- `this.backupJobs.get(id)`. -/
def getJob (jobs : List (String × Job)) (id : String) : Option Job :=
  (jobs.find? (fun p => p.1 == id)).map Prod.snd

/-- `this.backupJobs.set(id, j)`: overwrite an existing key, else insert. -/
def setJob (jobs : List (String × Job)) (id : String) (j : Job) :
    List (String × Job) :=
  if (jobs.find? (fun p => p.1 == id)).isSome then
    jobs.map (fun p => if p.1 == id then (id, j) else p)
  else
    jobs ++ [(id, j)]

/-- The response body of `handleBackgroundBackupStart`. -/
structure StartResponse where
  id : String
  directory : String
  status : JobStatus
  startedAt : Nat
  completedAt : Option Nat
  started : Bool
  deriving Repr, DecidableEq

/-- The response for an id already present in the table echoes the stored
job's current state. -/
def responseOfJob (j : Job) : StartResponse :=
  ⟨j.id, j.directory, j.status, j.startedAt, j.completedAt, false⟩

/-- Result of one `handleBackgroundBackupStart` step: the HTTP response, the
updated job table, and whether a new background job execution was spawned. -/
structure StartOutcome where
  response : StartResponse
  jobs : List (String × Job)
  spawned : Bool
  deriving Repr, DecidableEq

/-- Embedding of `FileServer.handleBackgroundBackupStart(pathname, id)` at
time `nowMs`: if a job with this id already exists, return its current state
without touching the table and without spawning work; otherwise create a
`pending` job, store it, spawn the background execution, and acknowledge. -/
def handleBackgroundBackupStart (jobs : List (String × Job))
    (pathname id : String) (nowMs : Nat) : StartOutcome :=
  let directory := if jsStartsWith pathname "/" then pathname else "/" ++ pathname
  match getJob jobs id with
  | some existing => ⟨responseOfJob existing, jobs, false⟩
  | none =>
    let job : Job := ⟨id, directory, .pending, nowMs, none⟩
    ⟨⟨id, directory, .pending, nowMs, none, true⟩, setJob jobs id job, true⟩

/-- Run a sequence of start requests `(pathname, id, nowMs)` against a job
table, returning the final table and the ids for which a background job
execution was spawned, in order. -/
def runStartRequests (jobs : List (String × Job)) :
    List (String × String × Nat) → List (String × Job) × List String
  | [] => (jobs, [])
  | (p, id, t) :: rest =>
    let o := handleBackgroundBackupStart jobs p id t
    let r := runStartRequests o.jobs rest
    (r.1, (if o.spawned then [id] else []) ++ r.2)


theorem find?_map_overwrite (id : String) (j : Job) :
    ∀ (jobs : List (String × Job)),
      (jobs.find? (fun p => p.1 == id)).isSome = true →
      ((jobs.map (fun p => if p.1 == id then (id, j) else p)).find?
          (fun p => p.1 == id)) = some (id, j) := by
  intro jobs
  induction jobs with
  | nil => intro h; simp at h
  | cons q qs ih =>
    intro h
    by_cases hq : q.1 = id
    · have hfq : (if (q.1 == id) = true then (id, j) else q) = (id, j) := by
        simp [hq]
      rw [List.map_cons, hfq, List.find?_cons_of_pos _ (by simp)]
    · have hfq : (if (q.1 == id) = true then (id, j) else q) = q := by
        simp [hq]
      rw [List.map_cons, hfq, List.find?_cons_of_neg _ (by simp [hq])]
      apply ih
      rw [List.find?_cons_of_neg _ (by simp [hq])] at h
      exact h

theorem find?_append_absent (id : String) (j : Job)
    (jobs : List (String × Job))
    (h : jobs.find? (fun p => p.1 == id) = none) :
    (jobs ++ [(id, j)]).find? (fun p => p.1 == id) = some (id, j) := by
  rw [List.find?_append, h]
  simp [List.find?]

theorem getJob_setJob_self (jobs : List (String × Job)) (id : String) (j : Job) :
    getJob (setJob jobs id j) id = some j := by
  simp only [getJob, setJob]
  by_cases h : (jobs.find? (fun p => p.1 == id)).isSome
  · rw [if_pos h, find?_map_overwrite id j jobs h]
    rfl
  · rw [if_neg h,
      find?_append_absent id j jobs (Option.not_isSome_iff_eq_none.mp h)]
    rfl

theorem find?_eq_none_of_getJob_none (jobs : List (String × Job)) (q : String)
    (h : getJob jobs q = none) : jobs.find? (fun p => p.1 == q) = none := by
  simp only [getJob, Option.map_eq_none'] at h
  exact h

theorem getJob_setJob_other (jobs : List (String × Job)) (q id : String)
    (j : Job) (hne : q ≠ id)
    (habs : jobs.find? (fun p => p.1 == q) = none) :
    getJob (setJob jobs q j) id = getJob jobs id := by
  simp only [getJob, setJob, habs]
  rw [if_neg (by simp)]
  rw [List.find?_append]
  cases hfi : jobs.find? (fun p => p.1 == id) with
  | some r => simp
  | none =>
    have hb : (q == id) = false := by simp [hne]
    simp [List.find?, hb]

theorem handleBackgroundBackupStart_present (jobs : List (String × Job))
    (p id : String) (t : Nat) (j : Job) (h : getJob jobs id = some j) :
    handleBackgroundBackupStart jobs p id t = ⟨responseOfJob j, jobs, false⟩ := by
  simp only [handleBackgroundBackupStart, h]

theorem handleBackgroundBackupStart_absent (jobs : List (String × Job))
    (p id : String) (t : Nat) (h : getJob jobs id = none) :
    handleBackgroundBackupStart jobs p id t
      = ⟨⟨id, (if jsStartsWith p "/" then p else "/" ++ p), .pending, t, none, true⟩,
          setJob jobs id
            ⟨id, (if jsStartsWith p "/" then p else "/" ++ p), .pending, t, none⟩,
          true⟩ := by
  simp only [handleBackgroundBackupStart, h]

theorem getJob_ne_none_after_start (jobs : List (String × Job)) (p q : String)
    (t : Nat) (id : String) (h : getJob jobs id ≠ none) :
    getJob (handleBackgroundBackupStart jobs p q t).jobs id ≠ none := by
  cases hg : getJob jobs q with
  | some j =>
    rw [handleBackgroundBackupStart_present jobs p q t j hg]
    exact h
  | none =>
    rw [handleBackgroundBackupStart_absent jobs p q t hg]
    dsimp only
    by_cases hq : q = id
    · subst hq
      rw [getJob_setJob_self]
      simp
    · rw [getJob_setJob_other jobs q id _ hq (find?_eq_none_of_getJob_none jobs q hg)]
      exact h

theorem spawn_count_zero (reqs : List (String × String × Nat)) :
    ∀ (jobs : List (String × Job)) (id : String), getJob jobs id ≠ none →
      ((runStartRequests jobs reqs).2.count id) = 0 := by
  induction reqs with
  | nil => intro jobs id _; simp [runStartRequests]
  | cons r rest ih =>
    intro jobs id h
    obtain ⟨p, q, t⟩ := r
    simp only [runStartRequests]
    have hnext := getJob_ne_none_after_start jobs p q t id h
    cases hg : getJob jobs q with
    | some j =>
      rw [handleBackgroundBackupStart_present jobs p q t j hg] at hnext ⊢
      dsimp only
      simp only [Bool.false_eq_true, if_false, List.nil_append]
      exact ih jobs id hnext
    | none =>
      have hne : q ≠ id := fun he => h (he ▸ hg)
      rw [handleBackgroundBackupStart_absent jobs p q t hg] at hnext ⊢
      dsimp only at hnext ⊢
      simp only [if_true, List.count_append]
      rw [ih _ id hnext]
      simp [List.count_cons, hne]

theorem spawn_count_le_one (reqs : List (String × String × Nat)) :
    ∀ (jobs : List (String × Job)) (id : String),
      ((runStartRequests jobs reqs).2.count id) ≤ 1 := by
  induction reqs with
  | nil => intro jobs id; simp [runStartRequests]
  | cons r rest ih =>
    intro jobs id
    obtain ⟨p, q, t⟩ := r
    simp only [runStartRequests]
    cases hg : getJob jobs q with
    | some j =>
      rw [handleBackgroundBackupStart_present jobs p q t j hg]
      dsimp only
      simp only [Bool.false_eq_true, if_false, List.nil_append]
      exact ih jobs id
    | none =>
      rw [handleBackgroundBackupStart_absent jobs p q t hg]
      dsimp only
      simp only [if_true, List.count_append]
      by_cases hq : q = id
      · subst hq
        have hpres : getJob
            (setJob jobs q ⟨q, (if jsStartsWith p "/" then p else "/" ++ p),
              .pending, t, none⟩) q ≠ none := by
          rw [getJob_setJob_self]
          simp
        rw [spawn_count_zero rest _ q hpres]
        simp [List.count_cons]
      · have h1 : ([q].count id) = 0 := by simp [List.count_cons, hq]
        rw [h1]
        simpa using ih _ id

/-- C10: background backup jobs are at-most-once per id: a start request
whose id is already in the job table returns that job's current state,
leaves the table unchanged and spawns no work; and across any sequence of
start requests (beginning from an empty table), at most one background
execution is ever spawned for any given id. -/
theorem background_backup_at_most_once_per_id :
    (∀ (jobs : List (String × Job)) (p id : String) (t : Nat) (j : Job),
      getJob jobs id = some j →
        handleBackgroundBackupStart jobs p id t = ⟨responseOfJob j, jobs, false⟩) ∧
    (∀ (reqs : List (String × String × Nat)) (id : String),
      ((runStartRequests [] reqs).2.count id) ≤ 1) :=
  ⟨fun jobs p id t j hj => handleBackgroundBackupStart_present jobs p id t j hj,
    fun reqs id => spawn_count_le_one reqs [] id⟩

/-- Witness for `background_backup_at_most_once_per_id`: a second start
request for an id already in the table is a no-op. -/
theorem background_backup_at_most_once_per_id_witness :
    getJob [("job1", (⟨"job1", "/data", .running, 100, none⟩ : Job))] "job1"
      = some ⟨"job1", "/data", .running, 100, none⟩ ∧
    handleBackgroundBackupStart
        [("job1", (⟨"job1", "/data", .running, 100, none⟩ : Job))] "/data" "job1" 200
      = ⟨responseOfJob ⟨"job1", "/data", .running, 100, none⟩,
          [("job1", (⟨"job1", "/data", .running, 100, none⟩ : Job))], false⟩ :=
  ⟨by decide,
    background_backup_at_most_once_per_id.1
      [("job1", (⟨"job1", "/data", .running, 100, none⟩ : Job))] "/data" "job1" 200
      ⟨"job1", "/data", .running, 100, none⟩ (by decide)⟩

/-! ## Startup script: `restore_from_backup`

The shell function lists `backups/` from the store, picks the first key of
the listing matching `grep -o '<Key>backups/[^<]*_data\.tar\.gz</Key>'`
(`head -n 1`), and calls the file server's restore endpoint with it — unless
the data directory already holds marker data. -/

/-- Embedding of the grep pattern `<Key>backups/[^<]*_<dirName>\.tar\.gz</Key>`
applied to one key: the key decomposes as
`"backups/" ++ mid ++ "_<dirName>.tar.gz"` with no `'<'` inside `mid`. -/
def grepKeyMatch (dirName k : String) : Bool :=
  (k.data.take ("backups/".data).length == "backups/".data) &&
  decide (("backups/".data).length + (("_" ++ dirName ++ ".tar.gz").data).length
    ≤ k.data.length) &&
  (k.data.drop (k.data.length - (("_" ++ dirName ++ ".tar.gz").data).length)
    == ("_" ++ dirName ++ ".tar.gz").data) &&
  ((k.data.drop ("backups/".data).length).take
      (k.data.length - ("backups/".data).length
        - (("_" ++ dirName ++ ".tar.gz").data).length)).all
    (fun c => !(c == '<'))

/-- `LATEST_BACKUP`: the keys appear in the XML listing in the store's
ascending-lexicographic order, and `head -n 1` keeps the first match. -/
def selectLatestBackup (dirName : String) (keys : List String) : Option String :=
  keys.find? (grepKeyMatch dirName)

/-- The claim's selection criterion: a key ending with `_<dirName>.tar.gz`. -/
def keyEndsWithDirSuffix (dirName k : String) : Bool :=
  decide ((("_" ++ dirName ++ ".tar.gz").data).length ≤ k.data.length) &&
  (k.data.drop (k.data.length - (("_" ++ dirName ++ ".tar.gz").data).length)
    == ("_" ++ dirName ++ ".tar.gz").data)

/-- Oracle for one run of `restore_from_backup`: credentials present, the file
server and proxy readiness polls, the marker-data checks on `/data`, and the
outcome of the `ListObjects` request. -/
structure BootEnv where
  credsPresent : Bool
  fileServerReady : Bool
  proxyConnected : Bool
  dataDirExists : Bool
  levelDatExists : Bool
  listOk : Bool
  listedKeys : List String

/-- Observable outcome of `restore_from_backup`: whether the store listing
was requested, whether the file-server restore endpoint (which downloads and
extracts) was called, and the backup key chosen. -/
structure BootOutcome where
  listRequested : Bool
  restoreRequested : Bool
  chosenBackup : Option String
  deriving Repr, DecidableEq

/-- Embedding of the `restore_from_backup` shell function: early returns on
missing credentials, an unready file server or proxy; then the marker-data
check (`[ -d /data ] && [ -f /data/level.dat ]`) returns before any listing;
otherwise list `backups/`, take the first key matching the directory's grep
pattern, and call the restore endpoint for it. -/
def restore_from_backup (env : BootEnv) : BootOutcome :=
  if env.credsPresent = false then ⟨false, false, none⟩
  else if env.fileServerReady = false then ⟨false, false, none⟩
  else if env.proxyConnected = false then ⟨false, false, none⟩
  else if env.dataDirExists && env.levelDatExists then ⟨false, false, none⟩
  else if env.listOk = false then ⟨true, false, none⟩
  else
    match selectLatestBackup "data" env.listedKeys with
    | none => ⟨true, false, none⟩
    | some k => ⟨true, true, some k⟩

/-- C5: a restore run on a data directory that already holds marker data
(`/data` exists and contains `level.dat`) returns before any object-store
interaction: no listing, no restore-endpoint call (hence no download or
extraction), and no backup is chosen — the directory is left untouched. -/
theorem restore_skips_when_marker_present (env : BootEnv)
    (hd : env.dataDirExists = true) (hl : env.levelDatExists = true) :
    restore_from_backup env = ⟨false, false, none⟩ := by
  simp only [restore_from_backup, hd, hl]
  by_cases h1 : env.credsPresent = false <;>
    by_cases h2 : env.fileServerReady = false <;>
      by_cases h3 : env.proxyConnected = false <;>
        simp [h1, h2, h3]

/-- Witness for `restore_skips_when_marker_present`. -/
theorem restore_skips_when_marker_present_witness :
    restore_from_backup
        { credsPresent := true, fileServerReady := true, proxyConnected := true,
          dataDirExists := true, levelDatExists := true, listOk := true,
          listedKeys := ["backups/1_data.tar.gz"] }
      = ⟨false, false, none⟩ :=
  restore_skips_when_marker_present _ rfl rfl

theorem suffix_no_slash : ∀ j, j < 12 →
    (("_" ++ "data" ++ ".tar.gz").data)[j]? ≠ some '/' := by decide

/-- A key that starts with `"backups/"` and ends with `"_data.tar.gz"` is at
least 20 characters long: the two patterns cannot overlap, because character
7 of the key is `'/'` while no character of `"_data.tar.gz"` is `'/'`. -/
theorem twenty_le_len (kd : List Char)
    (hpre : kd.take 8 = "backups/".data)
    (hlen12 : 12 ≤ kd.length)
    (hsuf : kd.drop (kd.length - 12) = ("_" ++ "data" ++ ".tar.gz").data) :
    20 ≤ kd.length := by
  by_contra hlt
  push_neg at hlt
  have h7 : kd[7]? = some '/' := by
    have h := congrArg (fun l => l[7]?) hpre
    simp only at h
    rw [List.getElem?_take_of_lt (by omega : (7 : Nat) < 8)] at h
    rw [h]
    rfl
  have hd := congrArg (fun l => l[19 - kd.length]?) hsuf
  simp only at hd
  rw [List.getElem?_drop] at hd
  have hidx : kd.length - 12 + (19 - kd.length) = 7 := by omega
  rw [hidx, h7] at hd
  exact suffix_no_slash (19 - kd.length) (by omega) hd.symm

theorem grepKeyMatch_eq_endsWith (k : String)
    (hpre : k.data.take 8 = "backups/".data)
    (hno : ('<' : Char) ∉ k.data) :
    grepKeyMatch "data" k = keyEndsWithDirSuffix "data" k := by
  rw [Bool.eq_iff_iff]
  simp only [grepKeyMatch, keyEndsWithDirSuffix, Bool.and_eq_true, beq_iff_eq,
    decide_eq_true_eq, List.all_eq_true, Bool.not_eq_true', beq_eq_false_iff_ne,
    show ("backups/".data).length = 8 from rfl,
    show (("_" ++ "data" ++ ".tar.gz").data).length = 12 from rfl]
  constructor
  · rintro ⟨⟨⟨hA, hB⟩, hCe⟩, hD⟩
    exact ⟨by omega, hCe⟩
  · rintro ⟨hE, hCe⟩
    have h20 : 20 ≤ k.data.length := twenty_le_len k.data hpre hE hCe
    refine ⟨⟨⟨hpre, by omega⟩, hCe⟩, ?_⟩
    intro c hc
    exact fun he => hno (he ▸ List.mem_of_mem_drop (List.mem_of_mem_take hc))

theorem find?_ext {α : Type} {p q : α → Bool} :
    ∀ (l : List α), (∀ x ∈ l, p x = q x) → l.find? p = l.find? q := by
  intro l
  induction l with
  | nil => intro _; rfl
  | cons a as ih =>
    intro h
    cases hpa : p a with
    | true =>
      rw [List.find?_cons_of_pos _ hpa,
        List.find?_cons_of_pos _ (by rw [← h a (List.mem_cons_self _ _)]; exact hpa)]
    | false =>
      rw [List.find?_cons_of_neg _ (by simp [hpa]),
        List.find?_cons_of_neg _ (by simp [← h a (List.mem_cons_self _ _), hpa])]
      exact ih (fun x hx => h x (List.mem_cons_of_mem _ hx))

/-- C7: when a restore proceeds, the backup chosen for download is the first
key, in the store's ascending lexicographic listing order, among all listed
keys ending with `_<dirName>.tar.gz` — given that the listing was requested
under the `backups/` prefix (every listed key starts with `"backups/"`) and
that S3 keys contain no `'<'`. -/
theorem restore_selects_first_matching_key (keys : List String)
    (hpre : ∀ k ∈ keys, k.data.take 8 = "backups/".data)
    (hno : ∀ k ∈ keys, ('<' : Char) ∉ k.data) :
    selectLatestBackup "data" keys = keys.find? (keyEndsWithDirSuffix "data") := by
  unfold selectLatestBackup
  apply find?_ext
  intro k hk
  exact grepKeyMatch_eq_endsWith k (hpre k hk) (hno k hk)

/-- Witness for `restore_selects_first_matching_key`: among three listed keys
the first one with the `_data.tar.gz` suffix is chosen, skipping an earlier
key of another directory. -/
theorem restore_selects_first_matching_key_witness :
    (∀ k ∈ (["backups/0_other.tar.gz", "backups/1_data.tar.gz",
        "backups/2_data.tar.gz"] : List String),
      k.data.take 8 = "backups/".data) ∧
    selectLatestBackup "data"
        ["backups/0_other.tar.gz", "backups/1_data.tar.gz", "backups/2_data.tar.gz"]
      = some "backups/1_data.tar.gz" := by
  constructor
  · decide
  · rw [restore_selects_first_matching_key _ (by decide) (by decide)]
    decide

/-! ## Worker: `POST /plugins/:filename`

The route handler guards plugin environment-variable changes behind the
workload being stopped: if the body carries `env` and `getStatus()` is not
`'stopped'`, it returns `{success:false, error}` without calling
`setPluginEnv` (and without reaching the enable/disable step). -/

/-- Observable outcome of the plugin-update handler: the response fields and
which container RPCs were invoked. -/
structure PluginPostOutcome where
  success : Bool
  error : Option String
  setPluginEnvCalled : Bool
  enablePluginCalled : Bool
  disablePluginCalled : Bool
  deriving Repr, DecidableEq

/-- Embedding of the `POST /plugins/:filename` handler body, as a function of
the container status string (`getStatus()`) and the request body's optional
`enabled` flag and `env` map. -/
def handlePluginPost (status : String) (enabled : Option Bool)
    (envBody : Option (List (String × String))) : PluginPostOutcome :=
  if envBody.isSome && (status != "stopped") then
    ⟨false, some "Server must be stopped to change plugin environment variables",
      false, false, false⟩
  else
    let envCalled := envBody.isSome
    match enabled with
    | some true => ⟨true, none, envCalled, true, false⟩
    | some false => ⟨true, none, envCalled, false, true⟩
    | none => ⟨true, none, envCalled, false, false⟩

/-- C8: a plugin-update request whose body includes `env` is rejected with
`{success:false, error}` while the workload is not stopped, and
`setPluginEnv` is not called; `setPluginEnv` is invoked only when the
workload's status is `'stopped'`. -/
theorem plugin_env_mutation_requires_stopped (status : String)
    (enabled : Option Bool) (envBody : Option (List (String × String)))
    (henv : envBody.isSome = true) :
    (status ≠ "stopped" →
      (handlePluginPost status enabled envBody).success = false ∧
      (handlePluginPost status enabled envBody).error.isSome = true ∧
      (handlePluginPost status enabled envBody).setPluginEnvCalled = false) ∧
    ((handlePluginPost status enabled envBody).setPluginEnvCalled = true →
      status = "stopped") := by
  by_cases hs : status = "stopped"
  · constructor
    · intro hne
      exact absurd hs hne
    · intro _
      exact hs
  · have hcond : (envBody.isSome && (status != "stopped")) = true := by
      simp [henv, bne_iff_ne, hs]
    constructor
    · intro _
      simp [handlePluginPost, hcond]
    · intro hset
      exfalso
      simp [handlePluginPost, hcond] at hset

/-- Witness for `plugin_env_mutation_requires_stopped`: a request carrying an
`env` map while the server is running. -/
theorem plugin_env_mutation_requires_stopped_witness :
    (some [("KEY", "VALUE")] : Option (List (String × String))).isSome = true ∧
    ("running" : String) ≠ "stopped" ∧
    (handlePluginPost "running" none (some [("KEY", "VALUE")])).success = false ∧
    (handlePluginPost "running" none (some [("KEY", "VALUE")])).setPluginEnvCalled
      = false := by
  refine ⟨rfl, by decide, ?_, ?_⟩
  · exact ((plugin_env_mutation_requires_stopped "running" none
      (some [("KEY", "VALUE")]) rfl).1 (by decide)).1
  · exact ((plugin_env_mutation_requires_stopped "running" none
      (some [("KEY", "VALUE")]) rfl).1 (by decide)).2.2

end Mineflare
